import Mathlib

/-!
Verification of the scytale-exercise repository core.

Part 1 embeds the fetch engine of `src/main/python/jobs/data_extraction.py`
(`fetch_data`): a loop that issues HTTP requests, concatenates JSON-array
bodies of 200-responses, follows `Link: rel="next"` pagination, waits and
retries the same URL on a zero-quota 403, and aborts on any other status.

Part 2 embeds the aggregation pipeline of
`src/main/python/jobs/data_transformation.py`: projection of repository
records, SQL grouping of pull requests by `head.repo.id`, the inner join on
`repository_id`, the `is_compliant` classification and the final column
selection.

The embedding is shallow: the server side of one call to `fetch_data` is the
finite sequence of responses the loop consumes, one per issued request;
wall-clock time is an explicit integer threaded through the loop.  A
non-negative duration passed to `time.sleep` advances the clock by exactly
that amount; a negative duration makes CPython's `time.sleep` raise
`ValueError`, which nothing in `fetch_data` catches, so the run dies and
returns nothing — the model makes that outcome explicit instead of a value.
-/

namespace Scytale

/-! ### Fetcher: data model -/

/-- One HTTP response as `fetch_data` inspects it: status code, JSON-array
body (a list of records of an arbitrary type `α`), the raw `Link` header if
present, the `X-RateLimit-Remaining` header parsed as an integer if present,
and the `X-RateLimit-Reset` header parsed as an integer. -/
structure Response (α : Type) where
  status : Nat
  body : List α
  linkHeader : Option String
  rateRemaining : Option Int
  rateReset : Int
deriving Repr

/-- A request issued by the loop: the URL it targets and the wall-clock time
at which it is issued. -/
structure RequestEvent where
  url : String
  time : Int
deriving Repr, DecidableEq

/-- Outcome of one modelled run of the fetch loop.  `result` is `some`
of the returned record list on a normal return, and `none` when the run
dies with the `ValueError` that `time.sleep` raises on a negative
duration (no records reach the caller then).  `events` lists every
request the run issued, in order, in both cases. -/
structure FetchRun (α : Type) where
  result : Option (List α)
  events : List RequestEvent
deriving Repr, DecidableEq

/-! ### Fetcher: Link-header parsing (lines 39-48 of data_extraction.py) -/

/-- Python `s.strip(chars)`: remove from both ends every character belonging
to `cs`. -/
def stripSet (cs : List Char) (s : String) : String :=
  ⟨((s.data.dropWhile (fun c => cs.contains c)).reverse.dropWhile
      (fun c => cs.contains c)).reverse⟩

/-- Python `s.strip()`: remove whitespace from both ends. -/
def stripWS (s : String) : String :=
  ⟨((s.data.dropWhile Char.isWhitespace).reverse.dropWhile
      Char.isWhitespace).reverse⟩

/-- Python `s.lower()` / Spark `lower(col)`: lowercase every character. -/
def lowerStr (s : String) : String :=
  ⟨s.data.map Char.toLower⟩

/-- Splitting a character list on a non-empty separator chunk, Python
`str.split(sep)` style: every occurrence of the separator ends a piece, and
adjacent occurrences yield empty pieces.  `fuel` bounds the recursion and is
always called with at least the length of the list, which suffices for a
non-empty separator. -/
def splitChunkAux (sep : List Char) : Nat → List Char → List Char →
    List (List Char)
  | 0, l, cur => [cur ++ l]
  | _ + 1, [], cur => [cur]
  | fuel + 1, c :: rest, cur =>
    if sep.isPrefixOf (c :: rest) then
      cur :: splitChunkAux sep fuel (List.drop sep.length (c :: rest)) []
    else
      splitChunkAux sep fuel rest (cur ++ [c])

/-- Python `s.split(sep)` for a non-empty separator. -/
def pySplit (s sep : String) : List String :=
  (splitChunkAux sep.data s.data.length s.data []).map (fun l => ⟨l⟩)

/-- `chunkIsInfix needle hay` is true when `needle` occurs as a contiguous
sublist of `hay`. -/
def chunkIsInfix (needle : List Char) : List Char → Bool
  | [] => needle.isEmpty
  | c :: rest => needle.isPrefixOf (c :: rest) || chunkIsInfix needle rest

/-- Python `needle in hay` on strings: substring containment. -/
def containsSubstr (hay needle : String) : Bool :=
  chunkIsInfix needle.data hay.data

/-- The pagination step of `fetch_data` applied to a present `Link` header:
split on `", "`, keep the entries containing `rel="next"`, take the first,
split it on `";"`, take the first piece, strip angle brackets, strip
whitespace.  Returns `none` when no entry mentions `rel="next"`. -/
def parseNextUrl (linkHeader : String) : Option String :=
  let links := pySplit linkHeader ", "
  let nextLinks := links.filter (fun link => containsSubstr link "rel=\"next\"")
  match nextLinks with
  | [] => none
  | l :: _ => some (stripWS (stripSet ['<', '>'] ((pySplit l ";").headD l)))

/-- Next URL after a 200 response: `None` when the `Link` header is absent,
otherwise the result of parsing it. -/
def nextUrlOf {α : Type} (r : Response α) : Option String :=
  match r.linkHeader with
  | none => none
  | some lh => parseNextUrl lh

/-! ### Fetcher: rate-limit wait (lines 55-60 of data_extraction.py) -/

/-- `sleep_time = reset_time - int(time.time()) + 1`, exactly as computed by
the rate-limit branch; no clamping is applied before `time.sleep`. -/
def sleep_time (resetTime now : Int) : Int :=
  resetTime - now + 1

/-! ### Fetcher: the loop (lines 31-67 of data_extraction.py)

`fetch_data url acc now resps` runs the `while url:` loop starting from
current URL `url`, accumulator `acc` (initially `[]`), wall-clock `now`,
against the finite trace `resps` of responses the server returns to the
successive requests.  It returns the accumulated records together with the
list of issued requests (URL and issue time).  In the rate-limit branch the
code calls `time.sleep(sleep_time)` with no guard: for a non-negative
duration the clock advances by exactly `sleep_time`, while a negative
duration (a reset timestamp more than a second in the past) makes
`time.sleep` raise `ValueError`, which propagates out of `fetch_data` — the
run records no further request and returns no record list.  When the loop
is still running after the trace is exhausted, the unconsumed remainder of
the run is not modelled and the accumulator so far is returned. -/

def fetch_data {α : Type} :
    Option String → List α → Int → List (Response α) → FetchRun α
  | none, acc, _, _ => ⟨some acc, []⟩
  | some _, acc, _, [] => ⟨some acc, []⟩
  | some u, acc, now, r :: rest =>
    if r.status == 200 then
      let res := fetch_data (nextUrlOf r) (acc ++ r.body) now rest
      ⟨res.result, ⟨u, now⟩ :: res.events⟩
    else if r.status == 403 && r.rateRemaining == some 0 then
      if sleep_time r.rateReset now < 0 then
        ⟨none, [⟨u, now⟩]⟩
      else
        let res :=
          fetch_data (some u) acc (now + sleep_time r.rateReset now) rest
        ⟨res.result, ⟨u, now⟩ :: res.events⟩
    else
      ⟨some acc, [⟨u, now⟩]⟩

/-! ### Aggregator: data model (data_transformation.py) -/

/-- A raw repository record as the pipeline reads it: the columns
`full_name`, `id`, `name` and the nested `owner.login`.  Every field is
optional because the JSON source enforces no schema; a missing nested path
reads as SQL NULL. -/
structure RepoRecord where
  full_name : Option String
  id : Option Int
  name : Option String
  owner_login : Option String
deriving Repr, DecidableEq

/-- A raw pull-request record as the pipeline reads it: the nested
`head.repo.id` path used for grouping, the `merged_at` timestamp (NULL when
the PR is not merged), and the `repository` tag added by the Fetcher. -/
structure PRRecord where
  head_repo_id : Option Int
  merged_at : Option String
  repository : Option String
deriving Repr, DecidableEq

/-- A row of `repo_filtered_df` (lines 25-30):
`organization_name, repository_id, repository_name, repository_owner`. -/
structure RepoSummary where
  organization_name : Option String
  repository_id : Option Int
  repository_name : Option String
  repository_owner : Option String
deriving Repr, DecidableEq

/-- A row of `pr_aggregated_df` (lines 35-45).  `num_prs` comes from
`COUNT(*)` and `num_prs_merged` from a `SUM` of 0/1 indicators, so both are
natural numbers; `merged_at` is `MAX(merged_at)`, NULL when every value in
the group is NULL. -/
structure PRAggregate where
  repository_id : Option Int
  num_prs : Nat
  num_prs_merged : Nat
  merged_at : Option String
deriving Repr, DecidableEq

/-- A row of the final DataFrame after the `select` on lines 58-67. -/
structure ComplianceRecord where
  organization_name : Option String
  repository_id : Option Int
  repository_name : Option String
  repository_owner : Option String
  num_prs : Nat
  num_prs_merged : Nat
  merged_at : Option String
  is_compliant : Bool
deriving Repr, DecidableEq

/-! ### Aggregator: repository projection (lines 25-30) -/

/-- `split(col("full_name"), "/").getItem(0)`: NULL propagates; Spark `split`
on a non-NULL string always yields at least one element. -/
def orgNameOf (fullName : Option String) : Option String :=
  fullName.map (fun s => (pySplit s "/").headD s)

/-- One row of `repo_filtered_df` from one raw repository record. -/
def repoSummaryOf (r : RepoRecord) : RepoSummary :=
  { organization_name := orgNameOf r.full_name
    repository_id := r.id
    repository_name := r.name
    repository_owner := r.owner_login }

/-- `repo_filtered_df`: the projection applied to every raw record. -/
def repo_filtered_df (repos : List RepoRecord) : List RepoSummary :=
  repos.map repoSummaryOf

/-! ### Aggregator: pull-request aggregation (lines 35-45)

The SQL groups by `head.repo.id` (NULL keys form their own group, as in
Spark SQL), and per group computes `COUNT(*)`,
`SUM(CASE WHEN merged_at IS NOT NULL THEN 1 ELSE 0 END)` and
`MAX(merged_at)` (SQL MAX ignores NULLs and is NULL on an all-NULL group).
Group-by output order is not guaranteed by Spark; we materialise one row per
distinct key in some definite order, and all theorems speak about the rows
as a collection. -/

/-- The group of a key: all records whose `head.repo.id` equals it
(NULL matching NULL, as GROUP BY does). -/
def groupOf (prs : List PRRecord) (k : Option Int) : List PRRecord :=
  prs.filter (fun p => p.head_repo_id == k)

/-- One step of SQL `MAX` aggregation over strings: absorb one non-NULL
value into the running maximum. -/
def mergeMax (acc : Option String) (s : String) : Option String :=
  match acc with
  | none => some s
  | some m => some (if m < s then s else m)

/-- SQL `MAX` over the `merged_at` column of a group: fold of binary max
over the non-NULL values, `none` when there is none. -/
def maxMergedAt (group : List PRRecord) : Option String :=
  (group.filterMap (fun p => p.merged_at)).foldl mergeMax none

/-- `SUM(CASE WHEN merged_at IS NOT NULL THEN 1 ELSE 0 END)` over a group. -/
def sumMergedIndicator (group : List PRRecord) : Nat :=
  (group.map (fun p => if p.merged_at.isSome then 1 else 0)).sum

/-- The aggregate row of one group key. -/
def aggRowOf (prs : List PRRecord) (k : Option Int) : PRAggregate :=
  { repository_id := k
    num_prs := (groupOf prs k).length
    num_prs_merged := sumMergedIndicator (groupOf prs k)
    merged_at := maxMergedAt (groupOf prs k) }

/-- First-occurrence deduplication with an explicit `seen` accumulator. -/
def dedupAux (seen : List (Option Int)) : List (Option Int) → List (Option Int)
  | [] => []
  | k :: rest =>
    if k ∈ seen then dedupAux seen rest
    else k :: dedupAux (k :: seen) rest

/-- The distinct grouping keys, one per group, in first-appearance order. -/
def groupKeys (prs : List PRRecord) : List (Option Int) :=
  dedupAux [] (prs.map (fun p => p.head_repo_id))

/-- `pr_aggregated_df`: one aggregate row per distinct `head.repo.id`. -/
def pr_aggregated_df (prs : List PRRecord) : List PRAggregate :=
  (groupKeys prs).map (aggRowOf prs)

/-! ### Aggregator: join, classification, selection (lines 47-67) -/

/-- SQL equality on the join key: NULL compares equal to nothing. -/
def sqlKeyEq (a b : Option Int) : Bool :=
  match a, b with
  | some x, some y => x == y
  | _, _ => false

/-- `joined_df = pr_aggregated_df.join(repo_filtered_df, "repository_id")`:
the inner join, as the multiset of matching pairs. -/
def joined_df (aggs : List PRAggregate) (sums : List RepoSummary) :
    List (PRAggregate × RepoSummary) :=
  aggs.flatMap (fun a =>
    (sums.filter (fun r => sqlKeyEq a.repository_id r.repository_id)).map
      (fun r => (a, r)))

/-- The `is_compliant` column (lines 49-56):
`when((num_prs == num_prs_merged) & lower(repository_owner).contains("scytale"), True).otherwise(False)`.
A NULL owner makes the condition NULL, hence the `otherwise` value False. -/
def is_compliant (numPrs numPrsMerged : Nat) (owner : Option String) : Bool :=
  match owner with
  | none => false
  | some o => numPrs == numPrsMerged && containsSubstr (lowerStr o) "scytale"

/-- One final row from one joined pair, after the `withColumn` and the
`select` of lines 58-67. -/
def finalRowOf (p : PRAggregate × RepoSummary) : ComplianceRecord :=
  { organization_name := p.2.organization_name
    repository_id := p.1.repository_id
    repository_name := p.2.repository_name
    repository_owner := p.2.repository_owner
    num_prs := p.1.num_prs
    num_prs_merged := p.1.num_prs_merged
    merged_at := p.1.merged_at
    is_compliant := is_compliant p.1.num_prs p.1.num_prs_merged p.2.repository_owner }

/-- `final_df` as a function of the two raw datasets: project, aggregate,
inner-join, classify, select. -/
def final_df (repos : List RepoRecord) (prs : List PRRecord) :
    List ComplianceRecord :=
  (joined_df (pr_aggregated_df prs) (repo_filtered_df repos)).map finalRowOf

/-- The column list of the final `select` (lines 58-67), in source order. -/
def finalSelectColumns : List String :=
  ["organization_name", "repository_id", "repository_name",
   "repository_owner", "num_prs", "num_prs_merged", "merged_at",
   "is_compliant"]

/-! ### Response-trace shapes used by the fetch theorems -/

/-- `Chain now u resps pages` says: at wall-clock `now` and URL `u`, the
responses `resps` are a finite successful pagination chain delivering the
page bodies `pages` in order — each 200 response either carries a `Link`
entry with `rel="next"` naming the URL the chain continues at, or ends the
chain, and any number of zero-quota 403 responses (which make the loop
retry the same URL) may be interleaved before any page, each with a reset
timestamp recent enough that the computed sleep is non-negative (otherwise
`time.sleep` would raise and the chain would not complete); a retry resumes
at clock `reset + 1`. -/
inductive Chain {α : Type} :
    Int → String → List (Response α) → List (List α) → Prop
  | last (now : Int) (u : String) (r : Response α) :
      r.status = 200 → nextUrlOf r = none → Chain now u [r] [r.body]
  | page (now : Int) (u uNext : String) (r : Response α)
      (rest : List (Response α)) (pages : List (List α)) :
      r.status = 200 → nextUrlOf r = some uNext →
      Chain now uNext rest pages →
      Chain now u (r :: rest) (r.body :: pages)
  | retry (now : Int) (u : String) (r : Response α)
      (rest : List (Response α)) (pages : List (List α)) :
      r.status = 403 → r.rateRemaining = some 0 →
      0 ≤ sleep_time r.rateReset now →
      Chain (r.rateReset + 1) u rest pages →
      Chain now u (r :: rest) pages

/-- `FailAfter u resps pages` says: starting at URL `u`, the responses
`resps` are K successful linked pages delivering `pages`, followed by one
terminal response that is neither a 200 nor a zero-quota 403. -/
inductive FailAfter {α : Type} : String → List (Response α) → List (List α) → Prop
  | fail (u : String) (r : Response α) :
      r.status ≠ 200 → ¬(r.status = 403 ∧ r.rateRemaining = some 0) →
      FailAfter u [r] []
  | page (u uNext : String) (r : Response α) (rest : List (Response α))
      (pages : List (List α)) :
      r.status = 200 → nextUrlOf r = some uNext → FailAfter uNext rest pages →
      FailAfter u (r :: rest) (r.body :: pages)

/-- Replace the Fetcher-added `repository` tag of a pull-request record,
leaving the fields the aggregation reads untouched. -/
def retag (f : PRRecord → Option String) (p : PRRecord) : PRRecord :=
  { p with repository := f p }

/-! ### Concrete data used by the witnesses -/

/-- Page 1 of a two-page chain: body `[1, 2]`, `Link` header pointing to
`u2`. -/
def wPage1 : Response Nat :=
  ⟨200, [1, 2], some "<u2>; rel=\"next\"", none, 0⟩

/-- A zero-quota 403 whose reset timestamp is 100. -/
def wRetry : Response Nat := ⟨403, [], none, some 0, 100⟩

/-- Page 2, the last page: body `[3]`, no `Link` header. -/
def wPage2 : Response Nat := ⟨200, [3], none, none, 0⟩

/-- A terminal server error. -/
def wFail : Response Nat := ⟨500, [9], none, none, 0⟩

/-- A merged pull request on repository 1. -/
def wPrMerged : PRRecord := ⟨some 1, some "2024-01-01", some "repoA"⟩

/-- An unmerged pull request on repository 1. -/
def wPrOpen : PRRecord := ⟨some 1, none, some "repoA"⟩

/-- A pull request lacking the nested `head.repo.id`. -/
def wPrNoId : PRRecord := ⟨none, some "2024-02-02", some "repoB"⟩

/-- A raw repository record for id 1 owned by `Scytale`. -/
def wRepoA : RepoRecord := ⟨some "scytale/repoA", some 1, some "repoA", some "Scytale"⟩

/-! ## Unfolding lemmas for the fetch loop -/

theorem fetch_data_200 {α : Type} (u : String) (acc : List α) (now : Int)
    (r : Response α) (rest : List (Response α)) (h : r.status = 200) :
    fetch_data (some u) acc now (r :: rest) =
      ⟨(fetch_data (nextUrlOf r) (acc ++ r.body) now rest).result,
        ⟨u, now⟩ :: (fetch_data (nextUrlOf r) (acc ++ r.body) now rest).events⟩ := by
  simp [fetch_data, h]

theorem fetch_data_quota (u : String) {α : Type} (acc : List α) (now : Int)
    (r : Response α) (rest : List (Response α)) (h403 : r.status = 403)
    (hrem : r.rateRemaining = some 0)
    (hpos : 0 ≤ sleep_time r.rateReset now) :
    fetch_data (some u) acc now (r :: rest) =
      ⟨(fetch_data (some u) acc (now + sleep_time r.rateReset now) rest).result,
        ⟨u, now⟩ ::
          (fetch_data (some u) acc
            (now + sleep_time r.rateReset now) rest).events⟩ := by
  have hneg : ¬ sleep_time r.rateReset now < 0 := not_lt.mpr hpos
  simp [fetch_data, h403, hrem, hneg]

theorem fetch_data_quota_crash (u : String) {α : Type} (acc : List α)
    (now : Int) (r : Response α) (rest : List (Response α))
    (h403 : r.status = 403) (hrem : r.rateRemaining = some 0)
    (hneg : sleep_time r.rateReset now < 0) :
    fetch_data (some u) acc now (r :: rest) = ⟨none, [⟨u, now⟩]⟩ := by
  simp [fetch_data, h403, hrem, hneg]

theorem fetch_data_abort (u : String) {α : Type} (acc : List α) (now : Int)
    (r : Response α) (rest : List (Response α)) (hne : r.status ≠ 200)
    (hnq : ¬(r.status = 403 ∧ r.rateRemaining = some 0)) :
    fetch_data (some u) acc now (r :: rest) = ⟨some acc, [⟨u, now⟩]⟩ := by
  have h1 : (r.status == 200) = false := by simpa using hne
  have h2 : (r.status == 403 && r.rateRemaining == (some 0 : Option Int)) = false := by
    by_cases h403 : r.status = 403
    · have hr : r.rateRemaining ≠ some 0 := fun hr => hnq ⟨h403, hr⟩
      simpa [h403] using hr
    · simp [h403]
  simp [fetch_data, h1, h2]

/-- The first request of any run with a pending URL and a non-empty trace is
issued at the current time against the current URL. -/
theorem fetch_data_head_event {α : Type} (u : String) (acc : List α)
    (now : Int) (r : Response α) (rest : List (Response α)) :
    ((fetch_data (some u) acc now (r :: rest)).events).head? =
      some ⟨u, now⟩ := by
  by_cases h200 : r.status = 200
  · rw [fetch_data_200 u acc now r rest h200]
    rfl
  · by_cases hq : r.status = 403 ∧ r.rateRemaining = some 0
    · by_cases hneg : sleep_time r.rateReset now < 0
      · rw [fetch_data_quota_crash u acc now r rest hq.1 hq.2 hneg]
        rfl
      · rw [fetch_data_quota u acc now r rest hq.1 hq.2 (not_lt.mp hneg)]
        rfl
    · rw [fetch_data_abort u acc now r rest h200 hq]
      rfl

/-- Records accumulated by a run over a successful pagination chain: the
initial accumulator followed by the chain's pages in order, returned
normally. -/
theorem chain_fetch_data {α : Type} {now : Int} {u : String}
    {resps : List (Response α)} {pages : List (List α)}
    (h : Chain now u resps pages) :
    ∀ acc : List α,
      (fetch_data (some u) acc now resps).result =
        some (acc ++ pages.flatten) := by
  induction h with
  | last now u r h200 hnext =>
    intro acc
    rw [fetch_data_200 u acc now r [] h200, hnext]
    simp [fetch_data]
  | page now u uNext r rest pages h200 hnext _ ih =>
    intro acc
    rw [fetch_data_200 u acc now r rest h200, hnext]
    simp [ih (acc ++ r.body)]
  | retry now u r rest pages h403 hrem hpos _ ih =>
    intro acc
    rw [fetch_data_quota u acc now r rest h403 hrem hpos]
    have hclock : now + sleep_time r.rateReset now = r.rateReset + 1 := by
      simp [sleep_time]; ring
    rw [hclock]
    simp [ih acc]

/-- Behaviour of a run over K successful pages followed by a terminal
non-200, non-quota response: the K pages' records are returned normally and
exactly K + 1 requests are issued overall. -/
theorem failafter_fetch_data {α : Type} {u : String}
    {resps : List (Response α)} {pages : List (List α)}
    (h : FailAfter u resps pages) :
    ∀ (acc : List α) (now : Int),
      (fetch_data (some u) acc now resps).result =
          some (acc ++ pages.flatten) ∧
      (fetch_data (some u) acc now resps).events.length =
          pages.length + 1 := by
  induction h with
  | fail u r hne hnq =>
    intro acc now
    rw [fetch_data_abort u acc now r [] hne hnq]
    simp
  | page u uNext r rest pages h200 hnext _ ih =>
    intro acc now
    rw [fetch_data_200 u acc now r rest h200, hnext]
    constructor
    · simp [(ih (acc ++ r.body) now).1]
    · simp [(ih (acc ++ r.body) now).2]

/-! ## Claim theorems: the fetch engine -/

/-- C2 counterexample: a well-formed two-page chain with one zero-quota 403
between the pages whose reset timestamp (100) is stale at the run's clock
(200): the computed sleep is negative, `time.sleep` raises `ValueError`,
and the fetch returns nothing — not the concatenation of the pages. -/
theorem fetch_data_concatenates_pages_cex :
    (fetch_data (some "u1") ([] : List Nat) 200
        [wPage1, wRetry, wPage2]).result = none := by decide

/-- C2 amended: for every seed URL whose responses form a finite chain of N
successful pages linked by `Link` `rel="next"` headers, `fetch_data`
returns exactly the concatenation of the N pages' elements in page order
and within-page order, no matter how many zero-quota retries occur between
page requests — provided each retry's reset timestamp is recent enough
that the computed sleep `reset - now + 1` is non-negative (a staler reset
makes `time.sleep` raise `ValueError` and the fetch crash instead). -/
theorem fetch_data_concatenates_pages {α : Type} (u : String) (now : Int)
    (resps : List (Response α)) (pages : List (List α))
    (h : Chain now u resps pages) :
    (fetch_data (some u) [] now resps).result = some pages.flatten := by
  simpa using chain_fetch_data h []

/-- Witness for C2: a two-page chain with one quota retry between the
pages, started early enough that the retry's sleep is non-negative. -/
theorem fetch_data_concatenates_pages_witness :
    (fetch_data (some "u1") ([] : List Nat) 50
        [wPage1, wRetry, wPage2]).result = some [[1, 2], [3]].flatten := by
  apply fetch_data_concatenates_pages "u1" 50 [wPage1, wRetry, wPage2]
    [[1, 2], [3]]
  exact Chain.page 50 "u1" "u2" wPage1 [wRetry, wPage2] [[3]] rfl (by decide)
    (Chain.retry 50 "u2" wRetry [wPage2] [[3]] rfl rfl (by decide)
      (Chain.last 101 "u2" wPage2 rfl rfl))

/-- C4 counterexample: a zero-quota 403 with reset T = 0 received at
wall-clock 10, with a further response available: the computed sleep is
negative, `time.sleep` raises `ValueError`, and the fetch terminates after
that single request — no retry of the same URL is ever issued, refuting
"the retry neither advances pagination nor terminates the fetch". -/
theorem fetch_data_rate_limit_wait_cex :
    fetch_data (some "u") ([] : List Nat) 10
        [⟨403, [], none, some 0, 0⟩, wPage2] =
      ⟨none, [⟨"u", 10⟩]⟩ := by decide

/-- C4 amended: on a 403 response carrying `X-RateLimit-Remaining: 0` and
`X-RateLimit-Reset: T`: when the current time is at most T + 1, the loop's
clock advances to exactly T + 1, the run continues with the same URL and
the same accumulated records, and the next request — if the trace
continues — is issued at time T + 1 against that same URL; when the current
time is past T + 1, the computed sleep is negative, `time.sleep` raises
`ValueError`, and the fetch terminates at once with no further request and
no returned records. -/
theorem fetch_data_rate_limit_wait {α : Type} (u : String) (acc : List α)
    (now T : Int) (r : Response α) (rest : List (Response α))
    (h403 : r.status = 403) (hrem : r.rateRemaining = some 0)
    (hT : r.rateReset = T) :
    (now ≤ T + 1 →
      fetch_data (some u) acc now (r :: rest) =
        ⟨(fetch_data (some u) acc (T + 1) rest).result,
          ⟨u, now⟩ :: (fetch_data (some u) acc (T + 1) rest).events⟩ ∧
      (rest ≠ [] →
        ((fetch_data (some u) acc (T + 1) rest).events).head? =
          some ⟨u, T + 1⟩)) ∧
    (T + 1 < now →
      fetch_data (some u) acc now (r :: rest) = ⟨none, [⟨u, now⟩]⟩) := by
  constructor
  · intro hle
    have hpos : 0 ≤ sleep_time r.rateReset now := by
      simp [sleep_time, hT]; omega
    have hclock : now + sleep_time r.rateReset now = T + 1 := by
      simp [sleep_time, hT]; ring
    constructor
    · rw [fetch_data_quota u acc now r rest h403 hrem hpos, hclock]
    · intro hne
      match rest with
      | [] => exact absurd rfl hne
      | r2 :: rest2 => exact fetch_data_head_event u acc (T + 1) r2 rest2
  · intro hgt
    have hneg : sleep_time r.rateReset now < 0 := by
      simp [sleep_time, hT]; omega
    exact fetch_data_quota_crash u acc now r rest h403 hrem hneg

/-- Witness for C4: a zero-quota 403 with reset time 100 received at time
50; the retry happens at time 101 against the same URL with the records
unchanged. -/
theorem fetch_data_rate_limit_wait_witness :
    fetch_data (some "u2") ([1, 2] : List Nat) 50 [wRetry, wPage2] =
      ⟨(fetch_data (some "u2") ([1, 2] : List Nat) (100 + 1)
          [wPage2]).result,
        ⟨"u2", 50⟩ ::
          (fetch_data (some "u2") ([1, 2] : List Nat) (100 + 1)
            [wPage2]).events⟩ :=
  ((fetch_data_rate_limit_wait "u2" ([1, 2] : List Nat) 50 100 wRetry
      [wPage2] rfl rfl rfl).1 (by decide)).1

/-- C6: after K successful pages, a non-200 response that is not a
zero-quota 403 stops the loop at once: exactly the records of those K pages
are returned as a normal value and no further request is issued (the total
request count is K + 1, counting the request that received the terminal
response). -/
theorem fetch_data_partial_on_failure {α : Type} (u : String) (now : Int)
    (resps : List (Response α)) (pages : List (List α))
    (h : FailAfter u resps pages) :
    (fetch_data (some u) [] now resps).result = some pages.flatten ∧
    (fetch_data (some u) [] now resps).events.length = pages.length + 1 := by
  have h2 := failafter_fetch_data h [] now
  simpa using h2

/-- Witness for C6: one successful page followed by a 500; only the first
page's records come back and exactly two requests are issued. -/
theorem fetch_data_partial_on_failure_witness :
    ((fetch_data (some "u1") ([] : List Nat) 0 [wPage1, wFail]).result =
        some [[1, 2]].flatten ∧
      (fetch_data (some "u1") ([] : List Nat) 0 [wPage1, wFail]).events.length =
        [[1, 2]].length + 1) := by
  apply fetch_data_partial_on_failure "u1" 0 [wPage1, wFail] [[1, 2]]
  exact FailAfter.page "u1" "u2" wPage1 [wFail] [] rfl (by decide)
    (FailAfter.fail "u2" wFail (by decide) (by decide))

/-! ## Helper lemmas for the aggregation pipeline -/

theorem sqlKeyEq_iff (a b : Option Int) :
    sqlKeyEq a b = true ↔ ∃ i : Int, a = some i ∧ b = some i := by
  cases a with
  | none => simp [sqlKeyEq]
  | some x =>
    cases b with
    | none => simp [sqlKeyEq]
    | some y =>
      simp only [sqlKeyEq, beq_iff_eq]
      constructor
      · intro h; exact ⟨x, rfl, by rw [h]⟩
      · rintro ⟨i, hx, hy⟩
        cases hx; cases hy; rfl

theorem mem_joined_df (aggs : List PRAggregate) (sums : List RepoSummary)
    (p : PRAggregate × RepoSummary) :
    p ∈ joined_df aggs sums ↔
      p.1 ∈ aggs ∧ p.2 ∈ sums ∧
        sqlKeyEq p.1.repository_id p.2.repository_id = true := by
  cases p with
  | mk a r =>
    simp only [joined_df, List.mem_flatMap, List.mem_map, List.mem_filter]
    constructor
    · rintro ⟨a', ha', r', ⟨hr', hkey⟩, heq⟩
      cases heq
      exact ⟨ha', hr', hkey⟩
    · rintro ⟨ha, hr, hkey⟩
      exact ⟨a, ha, r, ⟨hr, hkey⟩, rfl⟩

theorem mem_dedupAux (x : Option Int) (l : List (Option Int)) :
    ∀ seen, x ∈ dedupAux seen l ↔ x ∈ l ∧ x ∉ seen := by
  induction l with
  | nil => intro seen; simp [dedupAux]
  | cons k rest ih =>
    intro seen
    by_cases hk : k ∈ seen
    · simp only [dedupAux, if_pos hk, ih seen, List.mem_cons]
      constructor
      · rintro ⟨hx, hns⟩; exact ⟨Or.inr hx, hns⟩
      · rintro ⟨hx | hx, hns⟩
        · exact absurd (hx ▸ hk) hns
        · exact ⟨hx, hns⟩
    · simp only [dedupAux, if_neg hk, List.mem_cons, ih (k :: seen)]
      constructor
      · rintro (rfl | ⟨hx, hns⟩)
        · exact ⟨Or.inl rfl, hk⟩
        · exact ⟨Or.inr hx, fun hs => hns (Or.inr hs)⟩
      · rintro ⟨rfl | hx, hns⟩
        · exact Or.inl rfl
        · by_cases hxk : x = k
          · exact Or.inl hxk
          · exact Or.inr ⟨hx, by simp [hxk, hns]⟩

theorem dedupAux_nodup (l : List (Option Int)) :
    ∀ seen, (dedupAux seen l).Nodup := by
  induction l with
  | nil => intro seen; simp [dedupAux]
  | cons k rest ih =>
    intro seen
    by_cases hk : k ∈ seen
    · simpa [dedupAux, if_pos hk] using ih seen
    · simp only [dedupAux, if_neg hk, List.nodup_cons]
      refine ⟨fun hmem => ?_, ih (k :: seen)⟩
      exact ((mem_dedupAux k rest (k :: seen)).mp hmem).2 (List.mem_cons_self k seen)

theorem mem_groupKeys (prs : List PRRecord) (k : Option Int) :
    k ∈ groupKeys prs ↔ ∃ p ∈ prs, p.head_repo_id = k := by
  simp only [groupKeys, mem_dedupAux, List.not_mem_nil, not_false_iff,
    and_true, List.mem_map]

theorem mem_pr_aggregated_df (prs : List PRRecord) (a : PRAggregate) :
    a ∈ pr_aggregated_df prs ↔
      ∃ k, k ∈ groupKeys prs ∧ a = aggRowOf prs k := by
  simp only [pr_aggregated_df, List.mem_map]
  constructor
  · rintro ⟨k, hk, rfl⟩; exact ⟨k, hk, rfl⟩
  · rintro ⟨k, hk, rfl⟩; exact ⟨k, hk, rfl⟩

theorem mem_groupOf (prs : List PRRecord) (k : Option Int) (p : PRRecord) :
    p ∈ groupOf prs k ↔ p ∈ prs ∧ p.head_repo_id = k := by
  simp [groupOf]

theorem sumMergedIndicator_eq_countP (g : List PRRecord) :
    sumMergedIndicator g = g.countP (fun p => p.merged_at.isSome) := by
  induction g with
  | nil => rfl
  | cons p g ih =>
    simp only [sumMergedIndicator, List.map_cons, List.sum_cons,
      List.countP_cons] at *
    by_cases hp : p.merged_at.isSome
    · simp [hp, ih]; omega
    · simp [hp, ih]

theorem sumMergedIndicator_le_length (g : List PRRecord) :
    sumMergedIndicator g ≤ g.length := by
  rw [sumMergedIndicator_eq_countP]
  exact List.countP_le_length _

theorem foldl_mergeMax_some (l : List String) :
    ∀ m : String, ∃ t, l.foldl mergeMax (some m) = some t ∧
      t ∈ m :: l ∧ ∀ x ∈ m :: l, x ≤ t := by
  induction l with
  | nil =>
    intro m
    exact ⟨m, rfl, List.mem_cons_self m [], by simp⟩
  | cons s l ih =>
    intro m
    obtain ⟨t, hfold, hmem, hmax⟩ := ih (if m < s then s else m)
    refine ⟨t, ?_, ?_, ?_⟩
    · simpa [mergeMax] using hfold
    · rcases List.mem_cons.mp hmem with rfl | ht
      · by_cases hms : m < s
        · simp [hms]
        · simp [hms]
      · exact List.mem_cons_of_mem _ (List.mem_cons_of_mem _ ht)
    · intro x hx
      rcases List.mem_cons.mp hx with rfl | hx2
      · refine le_trans ?_ (hmax _ (List.mem_cons_self _ _))
        by_cases hms : x < s
        · simp [hms, le_of_lt hms]
        · simp [hms]
      · rcases List.mem_cons.mp hx2 with rfl | hx3
        · refine le_trans ?_ (hmax _ (List.mem_cons_self _ _))
          by_cases hms : m < x
          · simp [hms]
          · simp [hms, le_of_not_lt hms]
        · exact hmax x (List.mem_cons_of_mem _ hx3)

theorem maxMergedAt_none_iff (g : List PRRecord) :
    maxMergedAt g = none ↔ ∀ p ∈ g, p.merged_at = none := by
  rw [show (∀ p ∈ g, p.merged_at = none) ↔
        g.filterMap (fun p => p.merged_at) = [] by
      simp [List.filterMap_eq_nil_iff]]
  unfold maxMergedAt
  cases hfm : g.filterMap (fun p => p.merged_at) with
  | nil => simp
  | cons s l =>
    simp only [List.foldl_cons]
    obtain ⟨t, hfold, -, -⟩ := foldl_mergeMax_some l s
    constructor
    · intro h
      rw [show mergeMax none s = some s from rfl] at h
      rw [hfold] at h
      exact absurd h (by simp)
    · intro h; exact absurd h (by simp)

theorem maxMergedAt_some (g : List PRRecord) (t : String)
    (h : maxMergedAt g = some t) :
    (∃ p ∈ g, p.merged_at = some t) ∧
      ∀ p ∈ g, ∀ s, p.merged_at = some s → s ≤ t := by
  unfold maxMergedAt at h
  cases hfm : g.filterMap (fun p => p.merged_at) with
  | nil => rw [hfm] at h; exact absurd h (by simp)
  | cons s l =>
    rw [hfm] at h
    simp only [List.foldl_cons] at h
    obtain ⟨t2, hfold, hmem, hmax⟩ := foldl_mergeMax_some l s
    rw [show mergeMax none s = some s from rfl] at h
    rw [hfold] at h
    have heq : t2 = t := Option.some.inj h
    subst heq
    constructor
    · have : t2 ∈ g.filterMap (fun p => p.merged_at) := by rw [hfm]; exact hmem
      simpa [List.mem_filterMap] using this
    · intro p hp s2 hs2
      apply hmax
      rw [show (s :: l) = g.filterMap (fun p => p.merged_at) from hfm.symm]
      exact List.mem_filterMap.mpr ⟨p, hp, hs2⟩

/-- An aggregate row with a given key exists exactly when some pull-request
record carries that key as its `head.repo.id`. -/
theorem agg_row_exists_iff (prs : List PRRecord) (k : Option Int) :
    (∃ a ∈ pr_aggregated_df prs, a.repository_id = k) ↔
      ∃ p ∈ prs, p.head_repo_id = k := by
  constructor
  · rintro ⟨a, ha, hid⟩
    obtain ⟨k2, hk2, rfl⟩ := (mem_pr_aggregated_df prs a).mp ha
    rw [show (aggRowOf prs k2).repository_id = k2 from rfl] at hid
    subst hid
    exact (mem_groupKeys prs _).mp hk2
  · intro hp
    exact ⟨aggRowOf prs k,
      List.mem_map_of_mem _ ((mem_groupKeys prs k).mpr hp), rfl⟩

/-! ## Claim theorems: the aggregation pipeline -/

/-- C1: for every output row, `is_compliant` is true iff `num_prs` equals
`num_prs_merged` and the owner string, lowercased, contains the substring
`"scytale"`; in every other case — in particular when the owner is absent,
which makes the whole `when` condition NULL — it is false. -/
theorem final_is_compliant_iff (repos : List RepoRecord) (prs : List PRRecord)
    (row : ComplianceRecord) (hrow : row ∈ final_df repos prs) :
    row.is_compliant = true ↔
      (row.num_prs = row.num_prs_merged ∧
        ∃ o, row.repository_owner = some o ∧
          containsSubstr (lowerStr o) "scytale" = true) := by
  obtain ⟨p, hp, rfl⟩ := List.mem_map.mp hrow
  cases p with
  | mk a r =>
    simp only [finalRowOf, is_compliant]
    cases hown : r.repository_owner with
    | none => simp
    | some o => simp [Bool.and_eq_true, beq_iff_eq]

/-- Witness for C1: one repository owned by `Scytale`, one merged pull
request; the theorem's right-hand side holds and forces `is_compliant`. -/
theorem final_is_compliant_iff_witness :
    (finalRowOf (aggRowOf [wPrMerged] (some 1),
        repoSummaryOf wRepoA)).is_compliant = true :=
  (final_is_compliant_iff [wRepoA] [wPrMerged] _ (by decide)).mpr
    ⟨by decide, "Scytale", by decide, by decide⟩

/-- C3: the join is strictly inner on `repository_id` — a final row with a
given id exists exactly when both an aggregate row and a repository summary
carry that id; an id present on only one side yields no output row. -/
theorem join_strictly_inner (repos : List RepoRecord) (prs : List PRRecord)
    (i : Int) :
    (∃ row ∈ final_df repos prs, row.repository_id = some i) ↔
      ((∃ a ∈ pr_aggregated_df prs, a.repository_id = some i) ∧
        (∃ r ∈ repo_filtered_df repos, r.repository_id = some i)) := by
  constructor
  · rintro ⟨row, hrow, hid⟩
    obtain ⟨p, hp, rfl⟩ := List.mem_map.mp hrow
    obtain ⟨ha, hr, hkey⟩ := (mem_joined_df _ _ p).mp hp
    obtain ⟨j, hj1, hj2⟩ := (sqlKeyEq_iff _ _).mp hkey
    have hidp : p.1.repository_id = some i := hid
    refine ⟨⟨p.1, ha, hidp⟩, ⟨p.2, hr, ?_⟩⟩
    rw [hj1] at hidp
    rw [hj2]
    exact hidp
  · rintro ⟨⟨a, ha, hai⟩, ⟨r, hr, hri⟩⟩
    refine ⟨finalRowOf (a, r), ?_, hai⟩
    apply List.mem_map_of_mem
    exact (mem_joined_df _ _ (a, r)).mpr
      ⟨ha, hr, (sqlKeyEq_iff _ _).mpr ⟨i, hai, hri⟩⟩

/-- Witness for C3: repository 1 appears on both sides, so an output row
with id 1 exists. -/
theorem join_strictly_inner_witness :
    ∃ row ∈ final_df [wRepoA] [wPrMerged], row.repository_id = some 1 :=
  (join_strictly_inner [wRepoA] [wPrMerged] 1).mpr ⟨by decide, by decide⟩

/-- C9: every aggregate row satisfies `num_prs_merged ≤ num_prs`. -/
theorem num_prs_merged_le_num_prs (prs : List PRRecord) (a : PRAggregate)
    (ha : a ∈ pr_aggregated_df prs) :
    a.num_prs_merged ≤ a.num_prs := by
  obtain ⟨k, -, rfl⟩ := (mem_pr_aggregated_df prs a).mp ha
  simpa [aggRowOf] using sumMergedIndicator_le_length (groupOf prs k)

/-- Witness for C9: two pull requests, one merged. -/
theorem num_prs_merged_le_num_prs_witness :
    (aggRowOf [wPrMerged, wPrOpen] (some 1)).num_prs_merged ≤
      (aggRowOf [wPrMerged, wPrOpen] (some 1)).num_prs :=
  num_prs_merged_le_num_prs [wPrMerged, wPrOpen] _ (by decide)

/-- C10: records lacking `head.repo.id` are grouped under the NULL key —
such an aggregate row exists exactly when such a record exists, and the
pipeline stays total — and because NULL matches nothing in the inner join,
no final row ever carries a NULL `repository_id`, so the NULL-key group
contributes no output row. -/
theorem null_key_group_no_output (repos : List RepoRecord)
    (prs : List PRRecord) :
    ((∃ a ∈ pr_aggregated_df prs, a.repository_id = none) ↔
        ∃ p ∈ prs, p.head_repo_id = none) ∧
    (∀ row ∈ final_df repos prs, row.repository_id ≠ none) := by
  refine ⟨agg_row_exists_iff prs none, ?_⟩
  intro row hrow
  obtain ⟨p, hp, rfl⟩ := List.mem_map.mp hrow
  obtain ⟨-, -, hkey⟩ := (mem_joined_df _ _ p).mp hp
  obtain ⟨j, hj1, -⟩ := (sqlKeyEq_iff _ _).mp hkey
  simp [finalRowOf, hj1]

/-- Witness for C10: the only output row of a concrete run has a non-NULL
id. -/
theorem null_key_group_no_output_witness :
    (finalRowOf (aggRowOf [wPrMerged] (some 1),
        repoSummaryOf wRepoA)).repository_id ≠ none :=
  (null_key_group_no_output [wRepoA] [wPrMerged]).2 _ (by decide)

/-! ## Retag invariance: the aggregation never reads the Fetcher tag -/

theorem groupOf_retag (prs : List PRRecord) (f : PRRecord → Option String)
    (k : Option Int) :
    groupOf (prs.map (retag f)) k = (groupOf prs k).map (retag f) := by
  unfold groupOf
  rw [List.filter_map]
  rfl

theorem sumMergedIndicator_retag (f : PRRecord → Option String)
    (g : List PRRecord) :
    sumMergedIndicator (g.map (retag f)) = sumMergedIndicator g := by
  unfold sumMergedIndicator
  rw [List.map_map]
  rfl

theorem maxMergedAt_retag (f : PRRecord → Option String)
    (g : List PRRecord) :
    maxMergedAt (g.map (retag f)) = maxMergedAt g := by
  unfold maxMergedAt
  rw [List.filterMap_map]
  rfl

theorem aggRowOf_retag (prs : List PRRecord) (f : PRRecord → Option String)
    (k : Option Int) :
    aggRowOf (prs.map (retag f)) k = aggRowOf prs k := by
  simp only [aggRowOf, groupOf_retag, List.length_map,
    sumMergedIndicator_retag, maxMergedAt_retag]

theorem groupKeys_retag (prs : List PRRecord)
    (f : PRRecord → Option String) :
    groupKeys (prs.map (retag f)) = groupKeys prs := by
  unfold groupKeys
  rw [List.map_map]
  rfl

theorem pr_aggregated_df_retag (prs : List PRRecord)
    (f : PRRecord → Option String) :
    pr_aggregated_df (prs.map (retag f)) = pr_aggregated_df prs := by
  unfold pr_aggregated_df
  rw [groupKeys_retag]
  exact List.map_congr_left (fun k _ => aggRowOf_retag prs f k)

/-- C5: the aggregation groups by the nested `head.repo.id` — retagging the
Fetcher-added `repository` field never changes the result — and produces
exactly one row per distinct identifier (the key list has no duplicates and
is exactly the set of observed identifiers); per row, `num_prs` counts all
records of the group, `num_prs_merged` counts those whose merge timestamp is
present, and `merged_at` is the maximum over the present merge timestamps,
absent exactly when the group has none. -/
theorem pr_aggregation_semantics (prs : List PRRecord) :
    (∀ f : PRRecord → Option String,
        pr_aggregated_df (prs.map (retag f)) = pr_aggregated_df prs) ∧
    ((pr_aggregated_df prs).map (fun a => a.repository_id)).Nodup ∧
    (∀ k : Option Int,
      (∃ a ∈ pr_aggregated_df prs, a.repository_id = k) ↔
        ∃ p ∈ prs, p.head_repo_id = k) ∧
    ∀ a ∈ pr_aggregated_df prs,
      a.num_prs = prs.countP (fun p => p.head_repo_id == a.repository_id) ∧
      a.num_prs_merged =
        prs.countP
          (fun p => p.head_repo_id == a.repository_id &&
            p.merged_at.isSome) ∧
      (a.merged_at = none ↔
        ∀ p ∈ prs, p.head_repo_id = a.repository_id →
          p.merged_at = none) ∧
      ∀ t, a.merged_at = some t →
        (∃ p ∈ prs, p.head_repo_id = a.repository_id ∧
            p.merged_at = some t) ∧
          ∀ p ∈ prs, p.head_repo_id = a.repository_id →
            ∀ s, p.merged_at = some s → s ≤ t := by
  refine ⟨pr_aggregated_df_retag prs, ?_, agg_row_exists_iff prs, ?_⟩
  · have hmap : (pr_aggregated_df prs).map (fun a => a.repository_id) =
        groupKeys prs := by
      unfold pr_aggregated_df
      rw [List.map_map]
      exact List.map_id _
    rw [hmap]
    exact dedupAux_nodup _ []
  · intro a ha
    obtain ⟨k, -, rfl⟩ := (mem_pr_aggregated_df prs a).mp ha
    refine ⟨?_, ?_, ?_, ?_⟩
    · show (groupOf prs k).length =
        prs.countP (fun p => p.head_repo_id == k)
      rw [List.countP_eq_length_filter]
      rfl
    · show sumMergedIndicator (groupOf prs k) =
        prs.countP (fun p => p.head_repo_id == k && p.merged_at.isSome)
      rw [sumMergedIndicator_eq_countP]
      unfold groupOf
      rw [List.countP_filter]
      exact List.countP_congr (fun p _ => by
        cases hh : p.merged_at.isSome <;> simp [hh])
    · show maxMergedAt (groupOf prs k) = none ↔
        ∀ p ∈ prs, p.head_repo_id = k → p.merged_at = none
      rw [maxMergedAt_none_iff]
      constructor
      · intro h p hp hk
        exact h p ((mem_groupOf prs k p).mpr ⟨hp, hk⟩)
      · intro h p hp
        obtain ⟨hp2, hk⟩ := (mem_groupOf prs k p).mp hp
        exact h p hp2 hk
    · intro t ht
      have ht2 : maxMergedAt (groupOf prs k) = some t := ht
      obtain ⟨⟨p, hp, hpm⟩, hbound⟩ := maxMergedAt_some _ _ ht2
      obtain ⟨hp2, hk⟩ := (mem_groupOf prs k p).mp hp
      refine ⟨⟨p, hp2, hk, hpm⟩, ?_⟩
      intro q hq hqk s hs
      exact hbound q ((mem_groupOf prs k q).mpr ⟨hq, hqk⟩) s hs

/-- Witness for C5: with three records (two on repository 1, one keyless)
the aggregate key list is duplicate-free. -/
theorem pr_aggregation_semantics_witness :
    ((pr_aggregated_df [wPrMerged, wPrOpen, wPrNoId]).map
        (fun a => a.repository_id)).Nodup :=
  (pr_aggregation_semantics [wPrMerged, wPrOpen, wPrNoId]).2.1

/-! ## Claim theorems: output shape and sleep clamping -/

/-- C7 counterexample: the final `select` names eight columns, not seven —
the seven joined columns plus the derived `is_compliant`. -/
theorem final_select_not_seven_columns :
    ¬ finalSelectColumns.length = 7 := by decide

/-- C7 amended: the final output carries exactly eight declared fields, in
the fixed source order, with no duplicate field. -/
theorem final_select_eight_columns :
    finalSelectColumns.length = 8 ∧ finalSelectColumns.Nodup := by decide

/-- C8 counterexample: with reset timestamp 0 received at local time 10 the
computed wait is negative, and no floor is applied before `time.sleep`:
instead of sleeping a clamped non-negative duration and retrying, the run
dies in `time.sleep` with `ValueError` after its single request, ignoring
the rest of the trace. -/
theorem sleep_time_unclamped_cex :
    sleep_time 0 10 < 0 ∧
      fetch_data (some "u9") ([] : List Nat) 10
          [⟨403, [], none, some 0, 0⟩, ⟨500, [], none, none, 0⟩] =
        ⟨none, [⟨"u9", 10⟩]⟩ := by decide

/-- C8 amended: no clamping is performed — the wait passed to `time.sleep`
is exactly `reset_time - now + 1`, it is negative precisely when
`reset_time + 1` is already in the past, and in that case `time.sleep`
raises `ValueError` and the fetch crashes after the request that received
the 403, issuing no retry and returning no records. -/
theorem sleep_time_formula (resetTime now : Int) :
    sleep_time resetTime now = resetTime - now + 1 ∧
      (sleep_time resetTime now < 0 ↔ resetTime + 1 < now) ∧
      ∀ {α : Type} (u : String) (acc : List α) (r : Response α)
        (rest : List (Response α)),
        r.status = 403 → r.rateRemaining = some 0 →
        r.rateReset = resetTime → sleep_time resetTime now < 0 →
        fetch_data (some u) acc now (r :: rest) = ⟨none, [⟨u, now⟩]⟩ := by
  refine ⟨rfl, ?_, ?_⟩
  · simp [sleep_time]; omega
  · intro α u acc r rest h403 hrem hreset hneg
    exact fetch_data_quota_crash u acc now r rest h403 hrem
      (by rw [hreset]; exact hneg)

/-- Witness for C8's amended statement: reset 0 at local time 10 crashes
the run after one request. -/
theorem sleep_time_formula_witness :
    fetch_data (some "u7") ([] : List Nat) 10 [⟨403, [], none, some 0, 0⟩] =
      ⟨none, [⟨"u7", 10⟩]⟩ :=
  (sleep_time_formula 0 10).2.2 "u7" [] ⟨403, [], none, some 0, 0⟩ []
    rfl rfl rfl (by decide)

end Scytale
